import Mathlib

/-!
Shallow embedding of `src/app.py` (FDTeam Alerts, Flask app) for checking
its specification. Python strings are embedded as `List Char` (a Python
`str` is a sequence of unicode characters); the JSON-file store is
embedded as a `List MsgRecord` passed explicitly; the network transport is
an explicit input to the dispatcher, with a flag recording whether the
dispatcher reached the transport call.
-/

/-- Embedding of a Python `str`: a sequence of characters. -/
abbrev PyStr := List Char

/-- ASCII/latin-1 part of Python's `str.isspace` character class, used by
`str.strip()`.  (Further unicode whitespace exists in Python; no claim in
scope distinguishes it, and every character here is a non-digit, which is
the only property the proofs use.) -/
def pyIsSpace (c : Char) : Bool :=
  c = ' ' || c = '\t' || c = '\n' || c = '\r' || c = '\x0b' || c = '\x0c' ||
  c = '\x1c' || c = '\x1d' || c = '\x1e' || c = '\x1f' || c = '\x85' || c = '\xa0'

/-- Python `s.strip()`: drop leading and trailing whitespace. -/
def pyStrip (s : PyStr) : PyStr :=
  ((s.dropWhile pyIsSpace).reverse.dropWhile pyIsSpace).reverse

/-- Python `s.replace(old, new)` for single-character `old`/`new`
(the only use in the source: `raw.replace(ch, "\n")`). -/
def pyReplace (s : PyStr) (old new : Char) : PyStr :=
  s.map (fun c => if c = old then new else c)

/-- The line-break characters of Python's `str.splitlines`
(ASCII/latin-1 set plus the two unicode separators). -/
def isLineBreak (c : Char) : Bool :=
  c = '\n' || c = '\r' || c = '\x0b' || c = '\x0c' ||
  c = '\x1c' || c = '\x1d' || c = '\x1e' || c = '\x85' ||
  c = '\u2028' || c = '\u2029'

/-- Prepend a character onto the first line of a split result (the
continuation of a line that did not start with a break). -/
def consHead (c : Char) : List PyStr → List PyStr
  | [] => [[c]]
  | l :: ls => (c :: l) :: ls

/-- Python `s.splitlines()`: split at line breaks, `"\r\n"` counting as a
single break, with no trailing empty line. -/
def pySplitlines : PyStr → List PyStr
  | [] => []
  | [c] => if isLineBreak c then [[]] else [[c]]
  | c :: c2 :: rest =>
    if c = '\r' && c2 = '\n' then [] :: pySplitlines rest
    else if isLineBreak c then [] :: pySplitlines (c2 :: rest)
    else consHead c (pySplitlines (c2 :: rest))

/-- Python `s.startswith(p)`. -/
def startsWithL : PyStr → PyStr → Bool
  | _, [] => true
  | [], _ :: _ => false
  | c :: s, d :: p => c = d && startsWithL s p

/-- The `if`/`elif` chain of `_normalize_msisdn_msisdns`
(src/app.py lines 91-99), applied after the leading-`0` strip: keep a
`30…`, prefix `69…` with `30`, drop the `00` of a `0030…`, and otherwise
pass through. -/
def canonBranch (digits : PyStr) : PyStr :=
  if startsWithL digits ['3', '0'] then digits
  else if startsWithL digits ['6', '9'] then ['3', '0'] ++ digits
  else if startsWithL digits ['0', '0', '3', '0'] then digits.drop 2
  else digits

/-- The per-fragment canonicalization of `_normalize_msisdn_msisdns`
(src/app.py lines 89-99): strip one leading `0` (the `digits = digits[1:]`
reassignment), then run the branch chain. -/
def canonFrag (digits0 : PyStr) : PyStr :=
  canonBranch (if startsWithL digits0 ['0'] then digits0.drop 1 else digits0)

/-- The `seen`/`uniq` loop of `_normalize_msisdn_msisdns`
(src/app.py lines 100-107): keep the first occurrence of each value.
`seen` is the set of values already emitted. -/
def dedupFirstAux (seen : List PyStr) : List PyStr → List PyStr
  | [] => []
  | d :: rest =>
    if d ∈ seen then dedupFirstAux seen rest
    else d :: dedupFirstAux (d :: seen) rest

/-- `dedupFirstAux` started from the empty `seen` set. -/
def dedupFirst (l : List PyStr) : List PyStr := dedupFirstAux [] l

/-- The `parts` list of `_normalize_msisdn_msisdns` (src/app.py line 83):
strip each line, keep the non-empty results. -/
def stripParts (ls : List PyStr) : List PyStr :=
  ls.filterMap fun p =>
    let q := pyStrip p
    if q.isEmpty then none else some q

/-- The per-fragment loop of `_normalize_msisdn_msisdns`
(src/app.py lines 85-99): extract each fragment's digits, drop empty
digit strings, canonicalize the rest. -/
def canonParts (parts : List PyStr) : List PyStr :=
  parts.filterMap fun p =>
    let digits := p.filter Char.isDigit
    if digits.isEmpty then none else some (canonFrag digits)

/-- The `out` list of `_normalize_msisdn_msisdns` before deduplication
(src/app.py lines 78-99): guard on empty input, unify separators to
newlines, split into stripped non-empty fragments, canonicalize. -/
def canonOut (raw : PyStr) : List PyStr :=
  if raw.isEmpty then []
  else
    canonParts (stripParts (pySplitlines
      (pyReplace (pyReplace (pyReplace raw ',' '\n') ';' '\n') '\t' '\n')))

/-- `_normalize_msisdn_msisdns` (src/app.py lines 69-107). -/
def normalizeMsisdns (raw : PyStr) : List PyStr :=
  dedupFirst (canonOut raw)

/-- Rejoining a recipient list with newline separators, as the idempotence
property feeds the output back to the normalizer. -/
def joinNL : List PyStr → PyStr
  | [] => []
  | [d] => d
  | d :: rest => d ++ '\n' :: joinNL rest

/-- Position of the first occurrence of `x` in a list (length of the list
when absent). -/
def firstIdx (x : PyStr) : List PyStr → Nat
  | [] => 0
  | y :: l => if y = x then 0 else firstIdx x l + 1

/-- Spec-side reading of the deduplication contract ("preserve first-seen
order, drop later duplicates"): keep the entry at position `i` exactly
when `i` is the first position at which its value occurs. -/
def firstOccurrences (l : List PyStr) : List PyStr :=
  (List.range l.length).filterMap fun i =>
    if firstIdx (l.getD i []) l = i then some (l.getD i []) else none

/-- Python `value or default` for an optional string field
(`data.get(k) or d`): `None` and the empty string are falsy. -/
def pyOrStr (v : Option PyStr) (d : PyStr) : PyStr :=
  match v with
  | none => d
  | some s => if s.isEmpty then d else s

/-- `string.hexdigits.lower()`: the population `random.choices` draws from
in `_gen_id` — 22 characters, `a`-`f` appearing twice. -/
def hexdigitsLower : PyStr := "0123456789abcdefabcdef".toList

/-- `_gen_id` (src/app.py lines 63-64) with its default `n=8`: eight
independent draws from `hexdigitsLower`.  The random stream is an explicit
input. -/
def genId (draws : Fin 8 → Fin 22) : PyStr :=
  (List.finRange 8).map fun i => hexdigitsLower.getD (draws i).val '0'

/-- Result of `yuboto_send_sms` (src/app.py lines 132-185): either the
missing-key early return, an HTTP result (status code plus parsed or raw
body, abstracted to a string), or a caught exception. -/
inductive ProviderResp where
  | missingKey
  | httpResult (status_code : Nat) (body : PyStr)
  | exception (msg : PyStr)
deriving DecidableEq

/-- One acknowledgement event appended by `/seen`
(src/app.py line 602): `{"ts": _now_str(), "ip": request.remote_addr}`. -/
structure SeenEvent where
  ts : PyStr
  ip : PyStr
deriving DecidableEq

/-- One message record as appended by `/send` (src/app.py lines 635-647). -/
structure MsgRecord where
  id : PyStr
  timestamp : PyStr
  place : PyStr
  date : PyStr
  time : PyStr
  channel : PyStr
  msisdns : List PyStr
  text : PyStr
  landing : PyStr
  provider_response : ProviderResp
  seen_by : List SeenEvent
deriving DecidableEq

/-- The composed SMS text of `/send` (src/app.py line 629). -/
def makeText (place date_ time_ landing_url : PyStr) : PyStr :=
  "Flying Dads Team ⚽\nΥπενθύμιση: Παίζουμε στο ".toList ++ place ++
  " την ".toList ++ date_ ++ " ώρα ".toList ++ time_ ++
  "!\n👉 Δες περισσότερα: ".toList ++ landing_url

/-- The JSON response of `/send`, with the HTTP status it is returned
under. -/
structure SendResponse where
  ok : Bool
  status : Nat
  id : Option PyStr
  landing : Option PyStr
  error : Option PyStr
  provider : Option ProviderResp
deriving DecidableEq

/-- Everything `/send` produces: the response, the store as persisted
afterwards, and whether the transport call was reached. -/
structure SendOutcome where
  response : SendResponse
  store : List MsgRecord
  transportInvoked : Bool
deriving DecidableEq

/-- `api_send` (src/app.py lines 610-653).  The request body's fields are
`Option PyStr` (absent key ↦ `none`); the loaded store, the clock, the
random stream, the transport's `(ok, provider)` result and the configured
base URL are explicit inputs. -/
def apiSend (place? date? time? rawNumbers? channel? : Option PyStr)
    (now : PyStr) (draws : Fin 8 → Fin 22) (transportResult : Bool × ProviderResp)
    (baseUrl : PyStr) (store : List MsgRecord) : SendOutcome :=
  let place := pyStrip (pyOrStr place? [])
  let date_ := pyStrip (pyOrStr date? [])
  let time_ := pyStrip (pyOrStr time? [])
  let raw_numbers := pyOrStr rawNumbers? []
  let channel := pyStrip (pyOrStr channel? ['s', 'm', 's'])
  let msisdns := normalizeMsisdns raw_numbers
  if place.isEmpty || date_.isEmpty || time_.isEmpty then
    { response := { ok := false, status := 400, id := none, landing := none,
                    error := some "Συμπλήρωσε τόπο/ημερομηνία/ώρα.".toList, provider := none },
      store := store, transportInvoked := false }
  else if channel ≠ ['s', 'm', 's'] then
    { response := { ok := false, status := 400, id := none, landing := none,
                    error := some "Μόνο SMS υποστηρίζεται προς το παρόν.".toList, provider := none },
      store := store, transportInvoked := false }
  else if msisdns.isEmpty then
    { response := { ok := false, status := 400, id := none, landing := none,
                    error := some "Δεν βρέθηκαν παραλήπτες.".toList, provider := none },
      store := store, transportInvoked := false }
  else
    let msg_id := genId draws
    let landing_url := baseUrl ++ "/r?id=".toList ++ msg_id
    let text := makeText place date_ time_ landing_url
    let ok := transportResult.1
    let provider := transportResult.2
    let record : MsgRecord :=
      { id := msg_id, timestamp := now, place := place, date := date_, time := time_,
        channel := channel, msisdns := msisdns, text := text, landing := landing_url,
        provider_response := provider, seen_by := [] }
    let store' := store ++ [record]
    if ok then
      { response := { ok := true, status := 200, id := some msg_id,
                      landing := some landing_url, error := none, provider := none },
        store := store', transportInvoked := true }
    else
      { response := { ok := false, status := 500, id := some msg_id,
                      landing := some landing_url, error := some "Provider error".toList,
                      provider := some provider },
        store := store', transportInvoked := true }

/-- The `for x in logs: if x.get("id")==mid: …; break` loop of `api_seen`
(src/app.py lines 598-605): append the event to the first matching
record's `seen_by` and stop; also return the loop's `updated` flag. -/
def markSeen (mid : PyStr) (ev : SeenEvent) : List MsgRecord → List MsgRecord × Bool
  | [] => ([], false)
  | x :: rest =>
    if x.id = mid then
      ({ x with seen_by := x.seen_by ++ [ev] } :: rest, true)
    else
      let r := markSeen mid ev rest
      (x :: r.1, r.2)

/-- Everything `/seen` produces: the response flag and HTTP status, the
store as persisted afterwards, and whether `_write_json` ran. -/
structure SeenOutcome where
  ok : Bool
  status : Nat
  store : List MsgRecord
  written : Bool
deriving DecidableEq

/-- `api_seen` (src/app.py lines 591-608).  The request body's `id` field,
the clock, the client address and the loaded store are explicit inputs. -/
def apiSeen (id? : Option PyStr) (now remoteAddr : PyStr)
    (store : List MsgRecord) : SeenOutcome :=
  let mid := pyStrip (pyOrStr id? [])
  if mid.isEmpty then
    { ok := false, status := 400, store := store, written := false }
  else
    let r := markSeen mid { ts := now, ip := remoteAddr } store
    if r.2 then { ok := true, status := 200, store := r.1, written := true }
    else { ok := true, status := 200, store := store, written := false }

/-- The state the backing JSON file can be in when `_read_json` runs:
absent, present but unreadable (`open`/`read` raises), present but not
parseable JSON (`json.load` raises), or valid with parsed content. -/
inductive FileState (α : Type) where
  | missing
  | unreadable
  | corrupt
  | valid (data : α)
deriving DecidableEq

/-- `_read_json` (src/app.py lines 48-55): the `try`/`except` around
`path.exists()`/`open`/`json.load` collapses every non-valid file state to
the caller-supplied default; it is a total function, so no exception
reaches the caller. -/
def readJson {α : Type} (fs : FileState α) (default : α) : α :=
  match fs with
  | .valid data => data
  | _ => default

/-- A minimal message record with a chosen id, used to instantiate stores
in concrete checks. -/
def sampleRecord (idStr : PyStr) : MsgRecord :=
  { id := idStr, timestamp := [], place := [], date := [], time := [],
    channel := ['s', 'm', 's'], msisdns := [], text := [], landing := [],
    provider_response := ProviderResp.missingKey, seen_by := [] }

/-! ## Helper lemmas about the deduplication loop -/

theorem mem_of_mem_dedupFirstAux {x : PyStr} {seen l : List PyStr}
    (h : x ∈ dedupFirstAux seen l) : x ∈ l ∧ x ∉ seen := by
  induction l generalizing seen with
  | nil => simp [dedupFirstAux] at h
  | cons d rest ih =>
    by_cases hd : d ∈ seen
    · rw [dedupFirstAux, if_pos hd] at h
      obtain ⟨h1, h2⟩ := ih h
      exact ⟨List.mem_cons_of_mem _ h1, h2⟩
    · rw [dedupFirstAux, if_neg hd] at h
      rcases List.mem_cons.mp h with rfl | h
      · exact ⟨List.mem_cons_self _ _, hd⟩
      · obtain ⟨h1, h2⟩ := ih h
        exact ⟨List.mem_cons_of_mem _ h1, fun hx => h2 (List.mem_cons_of_mem _ hx)⟩

theorem nodup_dedupFirstAux (seen l : List PyStr) : (dedupFirstAux seen l).Nodup := by
  induction l generalizing seen with
  | nil => simp [dedupFirstAux]
  | cons d rest ih =>
    by_cases hd : d ∈ seen
    · rw [dedupFirstAux, if_pos hd]; exact ih seen
    · rw [dedupFirstAux, if_neg hd]
      refine List.nodup_cons.mpr ⟨fun hmem => ?_, ih (d :: seen)⟩
      exact (mem_of_mem_dedupFirstAux hmem).2 (List.mem_cons_self _ _)

theorem dedupFirstAux_eq_self {seen l : List PyStr}
    (hnd : l.Nodup) (hdisj : ∀ x ∈ l, x ∉ seen) : dedupFirstAux seen l = l := by
  induction l generalizing seen with
  | nil => rfl
  | cons d rest ih =>
    rw [dedupFirstAux, if_neg (hdisj d (List.mem_cons_self _ _))]
    have hnd' := List.nodup_cons.mp hnd
    refine congrArg (d :: ·) (ih hnd'.2 fun x hx => ?_)
    intro hmem
    rcases List.mem_cons.mp hmem with rfl | hmem
    · exact hnd'.1 hx
    · exact hdisj x (List.mem_cons_of_mem _ hx) hmem

theorem dedupFirstAux_eq_firstOcc (l : List PyStr) : ∀ seen : List PyStr,
    dedupFirstAux seen l
      = (List.range l.length).filterMap (fun i =>
          if firstIdx (l.getD i []) l = i ∧ l.getD i [] ∉ seen then some (l.getD i [])
          else none) := by
  induction l with
  | nil => intro seen; simp [dedupFirstAux]
  | cons a l ih =>
    intro seen
    rw [List.length_cons, List.range_succ_eq_map, List.filterMap_cons, List.filterMap_map]
    by_cases ha : a ∈ seen
    · rw [dedupFirstAux, if_pos ha]
      have h0 : (if firstIdx ((a :: l).getD 0 []) (a :: l) = 0 ∧ (a :: l).getD 0 [] ∉ seen
          then some ((a :: l).getD 0 []) else none) = none := by
        simp [ha]
      rw [h0, ih seen]
      refine List.filterMap_congr fun i hi => ?_
      simp only [Function.comp_apply, List.getD_cons_succ]
      refine if_congr (and_congr_left fun hmem => ?_) rfl rfl
      have hne : a ≠ l.getD i [] := fun he => hmem (he ▸ ha)
      rw [firstIdx, if_neg hne]
      exact ⟨fun h => by rw [h], fun h => Nat.succ_injective h⟩
    · rw [dedupFirstAux, if_neg ha]
      have h0 : (if firstIdx ((a :: l).getD 0 []) (a :: l) = 0 ∧ (a :: l).getD 0 [] ∉ seen
          then some ((a :: l).getD 0 []) else none) = some a := by
        simp [ha, firstIdx]
      rw [h0, ih (a :: seen)]
      refine congrArg (a :: ·) (List.filterMap_congr fun i hi => ?_)
      simp only [Function.comp_apply, List.getD_cons_succ]
      by_cases hne : a = l.getD i []
      · have hmem : l.getD i [] ∈ a :: seen := by
          rw [← hne]; exact List.mem_cons_self _ _
        rw [if_neg (show ¬(firstIdx (l.getD i []) l = i ∧ l.getD i [] ∉ a :: seen) from
          fun hcon => hcon.2 hmem)]
        rw [firstIdx, if_pos hne]
        rw [if_neg (show ¬((0 : Nat) = i + 1 ∧ l.getD i [] ∉ seen) from
          fun hcon => Nat.succ_ne_zero i hcon.1.symm)]
      · rw [firstIdx, if_neg hne]
        refine if_congr ?_ rfl rfl
        constructor
        · rintro ⟨h1, h2⟩
          simp only [List.mem_cons, not_or] at h2
          exact ⟨by rw [h1], h2.2⟩
        · rintro ⟨h1, h2⟩
          refine ⟨Nat.succ_injective h1, ?_⟩
          simp only [List.mem_cons, not_or]
          exact ⟨fun he => hne he.symm, h2⟩

theorem nodup_normalizeMsisdns (raw : PyStr) : (normalizeMsisdns raw).Nodup :=
  nodup_dedupFirstAux [] (canonOut raw)

theorem mem_canonOut_of_mem_normalize {x : PyStr} {raw : PyStr}
    (h : x ∈ normalizeMsisdns raw) : x ∈ canonOut raw :=
  (mem_of_mem_dedupFirstAux h).1

/-! ## Helper lemmas about the `/seen` search loop -/

theorem markSeen_of_first_match (mid : PyStr) (ev : SeenEvent)
    (pre : List MsgRecord) (x : MsgRecord) (post : List MsgRecord)
    (hpre : ∀ y ∈ pre, y.id ≠ mid) (hx : x.id = mid) :
    markSeen mid ev (pre ++ x :: post)
      = (pre ++ { x with seen_by := x.seen_by ++ [ev] } :: post, true) := by
  induction pre with
  | nil => simp [markSeen, hx]
  | cons y pre ih =>
    have hy : y.id ≠ mid := hpre y (List.mem_cons_self _ _)
    have := ih fun z hz => hpre z (List.mem_cons_of_mem _ hz)
    simp [markSeen, hy, this]

theorem markSeen_of_no_match (mid : PyStr) (ev : SeenEvent)
    (l : List MsgRecord) (h : ∀ y ∈ l, y.id ≠ mid) :
    markSeen mid ev l = (l, false) := by
  induction l with
  | nil => rfl
  | cons y rest ih =>
    have hy : y.id ≠ mid := h y (List.mem_cons_self _ _)
    have := ih fun z hz => h z (List.mem_cons_of_mem _ hz)
    simp [markSeen, hy, this]

theorem pyOrStr_some_nil (m : PyStr) : pyOrStr (some m) [] = m := by
  cases m <;> rfl

theorem isEmpty_false_of_ne_nil {α : Type} {l : List α} (h : l ≠ []) : l.isEmpty = false := by
  cases l with
  | nil => exact absurd rfl h
  | cons c t => rfl

/-! ## C7 -/

/-- C7: appending an acknowledgement for an id that matches a record
(the first match, `pre` holding the non-matching records before it)
rewrites exactly that record, extending its `seen_by` by the one new
event, and leaves every other record and every other field unchanged;
the handler reports success. -/
theorem seen_appends_to_matching_record
    (mid now remoteAddr : PyStr) (pre post : List MsgRecord) (x : MsgRecord)
    (hstrip : pyStrip mid = mid) (hne : mid ≠ [])
    (hpre : ∀ y ∈ pre, y.id ≠ mid) (hx : x.id = mid) :
    (apiSeen (some mid) now remoteAddr (pre ++ x :: post)).store
        = pre ++ { x with seen_by := x.seen_by ++ [{ ts := now, ip := remoteAddr }] } :: post
      ∧ (x.seen_by ++ [({ ts := now, ip := remoteAddr } : SeenEvent)]).length
          = x.seen_by.length + 1
      ∧ (apiSeen (some mid) now remoteAddr (pre ++ x :: post)).ok = true := by
  have hm := markSeen_of_first_match mid ({ ts := now, ip := remoteAddr } : SeenEvent)
    pre x post hpre hx
  simp [apiSeen, pyOrStr_some_nil, hstrip, isEmpty_false_of_ne_nil hne, hm]

/-! ## C8 -/

/-- C8: appending an acknowledgement for a non-empty id that matches no
record leaves the store unchanged, performs no write, and still reports
success. -/
theorem seen_unknown_id_noop
    (mid now remoteAddr : PyStr) (store : List MsgRecord)
    (hstrip : pyStrip mid = mid) (hne : mid ≠ [])
    (hno : ∀ y ∈ store, y.id ≠ mid) :
    (apiSeen (some mid) now remoteAddr store).store = store
      ∧ (apiSeen (some mid) now remoteAddr store).written = false
      ∧ (apiSeen (some mid) now remoteAddr store).ok = true := by
  have hm := markSeen_of_no_match mid ({ ts := now, ip := remoteAddr } : SeenEvent) store hno
  simp [apiSeen, pyOrStr_some_nil, hstrip, isEmpty_false_of_ne_nil hne, hm]

/-! ## C9 -/

/-- C9: `_read_json` returns the default (the empty store) whenever the
backing file is missing, unreadable or corrupt; being a total function of
the file state, it propagates no failure. -/
theorem read_json_default_on_bad_file (fs : FileState (List MsgRecord))
    (h : fs = FileState.missing ∨ fs = FileState.unreadable ∨ fs = FileState.corrupt) :
    readJson fs [] = [] := by
  rcases h with rfl | rfl | rfl <;> rfl

theorem read_json_default_witness :
    ((FileState.missing : FileState (List MsgRecord)) = FileState.missing
        ∨ (FileState.missing : FileState (List MsgRecord)) = FileState.unreadable
        ∨ (FileState.missing : FileState (List MsgRecord)) = FileState.corrupt)
      ∧ readJson (FileState.missing : FileState (List MsgRecord)) [] = [] :=
  ⟨Or.inl rfl, read_json_default_on_bad_file FileState.missing (Or.inl rfl)⟩

/-! ## C5 -/

/-- C5: a send request with an empty place, date or time, an effective
channel other than `sms`, or recipients normalizing to the empty list is
rejected with HTTP 400 and `ok=false`; the store is unchanged and the
transport is never reached. -/
theorem send_validation_rejects
    (place? date? time? rawNumbers? channel? : Option PyStr) (now : PyStr)
    (draws : Fin 8 → Fin 22) (tr : Bool × ProviderResp) (baseUrl : PyStr)
    (store : List MsgRecord)
    (h : pyStrip (pyOrStr place? []) = [] ∨ pyStrip (pyOrStr date? []) = []
        ∨ pyStrip (pyOrStr time? []) = []
        ∨ pyStrip (pyOrStr channel? ['s', 'm', 's']) ≠ ['s', 'm', 's']
        ∨ normalizeMsisdns (pyOrStr rawNumbers? []) = []) :
    (apiSend place? date? time? rawNumbers? channel? now draws tr baseUrl store).response.ok
        = false
      ∧ (apiSend place? date? time? rawNumbers? channel? now draws tr baseUrl
          store).response.status = 400
      ∧ (apiSend place? date? time? rawNumbers? channel? now draws tr baseUrl store).store
        = store
      ∧ (apiSend place? date? time? rawNumbers? channel? now draws tr baseUrl
          store).transportInvoked = false := by
  simp only [apiSend]
  split_ifs with h1 h2 h3 htr
  · exact ⟨rfl, rfl, rfl, rfl⟩
  · exact ⟨rfl, rfl, rfl, rfl⟩
  · exact ⟨rfl, rfl, rfl, rfl⟩
  all_goals exfalso
  all_goals rcases h with h | h | h | h | h
  all_goals first
    | exact h2 h
    | exact h3 h
    | exact h3 (by rw [h]; rfl)
    | (rw [h] at h1; exact h1 (by simp))

theorem send_validation_rejects_witness :
    (pyStrip (pyOrStr (none : Option PyStr) []) = []
        ∨ pyStrip (pyOrStr (some "2025-06-01".toList) []) = []
        ∨ pyStrip (pyOrStr (some "20:00".toList) []) = []
        ∨ pyStrip (pyOrStr (none : Option PyStr) ['s', 'm', 's']) ≠ ['s', 'm', 's']
        ∨ normalizeMsisdns (pyOrStr (some "6912345678".toList) []) = [])
      ∧ ((apiSend none (some "2025-06-01".toList) (some "20:00".toList)
            (some "6912345678".toList) none [] (fun _ => 0) (true, ProviderResp.missingKey)
            [] []).response.ok = false
        ∧ (apiSend none (some "2025-06-01".toList) (some "20:00".toList)
            (some "6912345678".toList) none [] (fun _ => 0) (true, ProviderResp.missingKey)
            [] []).response.status = 400
        ∧ (apiSend none (some "2025-06-01".toList) (some "20:00".toList)
            (some "6912345678".toList) none [] (fun _ => 0) (true, ProviderResp.missingKey)
            [] []).store = []
        ∧ (apiSend none (some "2025-06-01".toList) (some "20:00".toList)
            (some "6912345678".toList) none [] (fun _ => 0) (true, ProviderResp.missingKey)
            [] []).transportInvoked = false) :=
  ⟨Or.inl rfl,
    send_validation_rejects none (some "2025-06-01".toList) (some "20:00".toList)
      (some "6912345678".toList) none [] (fun _ => 0) (true, ProviderResp.missingKey)
      [] [] (Or.inl rfl)⟩

/-! ## C6 -/

/-- C6: on a valid send request the record is appended to the store
whatever the transport outcome, carrying the provider result that was
obtained; and when the transport did not succeed the response is
`ok=false` with HTTP 500 yet still carries the message id, the landing
URL and the provider detail. -/
theorem send_persists_despite_transport_failure
    (place? date? time? rawNumbers? channel? : Option PyStr) (now : PyStr)
    (draws : Fin 8 → Fin 22) (tr : Bool × ProviderResp) (baseUrl : PyStr)
    (store : List MsgRecord)
    (h1 : pyStrip (pyOrStr place? []) ≠ []) (h2 : pyStrip (pyOrStr date? []) ≠ [])
    (h3 : pyStrip (pyOrStr time? []) ≠ [])
    (h4 : pyStrip (pyOrStr channel? ['s', 'm', 's']) = ['s', 'm', 's'])
    (h5 : normalizeMsisdns (pyOrStr rawNumbers? []) ≠ []) :
    (apiSend place? date? time? rawNumbers? channel? now draws tr baseUrl store).store
        = store ++
          [{ id := genId draws, timestamp := now,
             place := pyStrip (pyOrStr place? []), date := pyStrip (pyOrStr date? []),
             time := pyStrip (pyOrStr time? []),
             channel := pyStrip (pyOrStr channel? ['s', 'm', 's']),
             msisdns := normalizeMsisdns (pyOrStr rawNumbers? []),
             text := makeText (pyStrip (pyOrStr place? [])) (pyStrip (pyOrStr date? []))
               (pyStrip (pyOrStr time? [])) (baseUrl ++ "/r?id=".toList ++ genId draws),
             landing := baseUrl ++ "/r?id=".toList ++ genId draws,
             provider_response := tr.2, seen_by := [] }]
      ∧ (tr.1 = false →
          (apiSend place? date? time? rawNumbers? channel? now draws tr baseUrl
              store).response.ok = false
          ∧ (apiSend place? date? time? rawNumbers? channel? now draws tr baseUrl
              store).response.status = 500
          ∧ (apiSend place? date? time? rawNumbers? channel? now draws tr baseUrl
              store).response.id = some (genId draws)
          ∧ (apiSend place? date? time? rawNumbers? channel? now draws tr baseUrl
              store).response.landing = some (baseUrl ++ "/r?id=".toList ++ genId draws)
          ∧ (apiSend place? date? time? rawNumbers? channel? now draws tr baseUrl
              store).response.provider = some tr.2) := by
  simp only [apiSend]
  rw [isEmpty_false_of_ne_nil h1, isEmpty_false_of_ne_nil h2, isEmpty_false_of_ne_nil h3,
    isEmpty_false_of_ne_nil h5]
  simp only [Bool.or_self, Bool.false_eq_true, if_false, h4, ne_eq, not_true_eq_false]
  by_cases htr : tr.1 = true
  · simp [htr]
  · simp only [Bool.not_eq_true] at htr
    simp [htr]

/-! ## C10 -/

/-- C10: a send request whose body omits the `channel` field, or supplies
the empty (falsy) string, gets the default channel `sms`, passes the
channel check, and is processed as an SMS send: the transport is reached
and the appended record's channel is `sms`. -/
theorem send_channel_defaults_to_sms
    (place? date? time? rawNumbers? channel? : Option PyStr) (now : PyStr)
    (draws : Fin 8 → Fin 22) (tr : Bool × ProviderResp) (baseUrl : PyStr)
    (store : List MsgRecord)
    (hch : channel? = none ∨ channel? = some [])
    (h1 : pyStrip (pyOrStr place? []) ≠ []) (h2 : pyStrip (pyOrStr date? []) ≠ [])
    (h3 : pyStrip (pyOrStr time? []) ≠ [])
    (h5 : normalizeMsisdns (pyOrStr rawNumbers? []) ≠ []) :
    (apiSend place? date? time? rawNumbers? channel? now draws tr baseUrl
        store).transportInvoked = true
      ∧ (apiSend place? date? time? rawNumbers? channel? now draws tr baseUrl
          store).store.map MsgRecord.channel
        = store.map MsgRecord.channel ++ ["sms".toList] := by
  have h4 : pyStrip (pyOrStr channel? ['s', 'm', 's']) = ['s', 'm', 's'] := by
    rcases hch with rfl | rfl <;> decide
  simp only [apiSend]
  rw [isEmpty_false_of_ne_nil h1, isEmpty_false_of_ne_nil h2, isEmpty_false_of_ne_nil h3,
    isEmpty_false_of_ne_nil h5]
  simp only [Bool.or_self, Bool.false_eq_true, if_false, h4, ne_eq, not_true_eq_false]
  by_cases htr : tr.1 = true
  · simp [htr, h4]
  · simp only [Bool.not_eq_true] at htr
    simp [htr, h4]

/-! ## C1 -/

/-- C1: evaluating the normalizer at `"0030698765432"`.  Because the
leading-`0` strip runs before the `0030` check (src/app.py lines 89-96),
the `0030` branch can never fire on a fragment whose digits start with
`0030`; the result keeps a leading zero, against both the spec and the
source's own comment `# 0030xxxx -> 30xxxx`. -/
theorem normalize_0030_keeps_a_zero :
    normalizeMsisdns "0030698765432".toList = ["030698765432".toList]
      ∧ normalizeMsisdns "0030698765432".toList ≠ ["30698765432".toList] := by
  decide

/-! ## C2, counterexample -/

/-- C2 fails on the code as stated: re-normalizing the rejoined output of
`"0030698765432"` gives a different list (the kept leading zero is
stripped on the second pass). -/
theorem normalize_not_idempotent :
    normalizeMsisdns (joinNL (normalizeMsisdns "0030698765432".toList))
      ≠ normalizeMsisdns "0030698765432".toList := by
  decide

/-! ## C3 -/

/-- C3 fails as stated: `_gen_id` never checks the store, so a valid send
can create a record whose id equals a prior record's id (here the random
stream draws index 0 eight times, reproducing the existing id
`"00000000"`). -/
theorem send_id_can_collide :
    (sampleRecord "00000000".toList).id = "00000000".toList
      ∧ (apiSend (some "Arena".toList) (some "2025-06-01".toList) (some "20:00".toList)
          (some "6912345678".toList) (some "sms".toList) [] (fun _ => 0)
          (true, ProviderResp.missingKey) [] [sampleRecord "00000000".toList]).transportInvoked
        = true
      ∧ (apiSend (some "Arena".toList) (some "2025-06-01".toList) (some "20:00".toList)
          (some "6912345678".toList) (some "sms".toList) [] (fun _ => 0)
          (true, ProviderResp.missingKey) [] [sampleRecord "00000000".toList]).store.map
            MsgRecord.id
        = ["00000000".toList, "00000000".toList] := by
  decide

/-- C3 amended: on a valid send request the appended record's recipient
list is the normalizer's output — non-empty and duplicate-free — and the
id is the eight-character string produced by the random draws; uniqueness
against prior records is not enforced. -/
theorem send_record_recipients_nodup
    (place? date? time? rawNumbers? channel? : Option PyStr) (now : PyStr)
    (draws : Fin 8 → Fin 22) (tr : Bool × ProviderResp) (baseUrl : PyStr)
    (store : List MsgRecord)
    (h1 : pyStrip (pyOrStr place? []) ≠ []) (h2 : pyStrip (pyOrStr date? []) ≠ [])
    (h3 : pyStrip (pyOrStr time? []) ≠ [])
    (h4 : pyStrip (pyOrStr channel? ['s', 'm', 's']) = ['s', 'm', 's'])
    (h5 : normalizeMsisdns (pyOrStr rawNumbers? []) ≠ []) :
    (apiSend place? date? time? rawNumbers? channel? now draws tr baseUrl store).store.map
        MsgRecord.id
      = store.map MsgRecord.id ++ [genId draws]
    ∧ (apiSend place? date? time? rawNumbers? channel? now draws tr baseUrl store).store.map
        MsgRecord.msisdns
      = store.map MsgRecord.msisdns ++ [normalizeMsisdns (pyOrStr rawNumbers? [])]
    ∧ normalizeMsisdns (pyOrStr rawNumbers? []) ≠ []
    ∧ (normalizeMsisdns (pyOrStr rawNumbers? [])).Nodup
    ∧ (genId draws).length = 8 := by
  simp only [apiSend]
  rw [isEmpty_false_of_ne_nil h1, isEmpty_false_of_ne_nil h2, isEmpty_false_of_ne_nil h3,
    isEmpty_false_of_ne_nil h5]
  simp only [Bool.or_self, Bool.false_eq_true, if_false, h4, ne_eq, not_true_eq_false]
  refine ⟨?_, ?_, h5, nodup_normalizeMsisdns _, by simp [genId]⟩ <;>
    by_cases htr : tr.1 = true <;> simp [htr]

theorem send_record_recipients_nodup_witness :
    (pyStrip (pyOrStr (some "Arena".toList) []) ≠ []
        ∧ pyStrip (pyOrStr (some "2025-06-01".toList) []) ≠ []
        ∧ pyStrip (pyOrStr (some "20:00".toList) []) ≠ []
        ∧ pyStrip (pyOrStr (some "sms".toList) ['s', 'm', 's']) = ['s', 'm', 's']
        ∧ normalizeMsisdns (pyOrStr (some "6900000000".toList) []) ≠ [])
      ∧ ((apiSend (some "Arena".toList) (some "2025-06-01".toList) (some "20:00".toList)
            (some "6900000000".toList) (some "sms".toList) [] (fun _ => 0)
            (false, ProviderResp.exception []) [] []).store.map MsgRecord.id
          = ([] : List MsgRecord).map MsgRecord.id ++ [genId (fun _ => 0)]
        ∧ (apiSend (some "Arena".toList) (some "2025-06-01".toList) (some "20:00".toList)
            (some "6900000000".toList) (some "sms".toList) [] (fun _ => 0)
            (false, ProviderResp.exception []) [] []).store.map MsgRecord.msisdns
          = ([] : List MsgRecord).map MsgRecord.msisdns
              ++ [normalizeMsisdns (pyOrStr (some "6900000000".toList) [])]
        ∧ normalizeMsisdns (pyOrStr (some "6900000000".toList) []) ≠ []
        ∧ (normalizeMsisdns (pyOrStr (some "6900000000".toList) [])).Nodup
        ∧ (genId (fun _ => 0)).length = 8) :=
  ⟨⟨by decide, by decide, by decide, by decide, by decide⟩,
    send_record_recipients_nodup (some "Arena".toList) (some "2025-06-01".toList)
      (some "20:00".toList) (some "6900000000".toList) (some "sms".toList) []
      (fun _ => 0) (false, ProviderResp.exception []) [] []
      (by decide) (by decide) (by decide) (by decide) (by decide)⟩

theorem send_persists_witness :
    (pyStrip (pyOrStr (some "Arena".toList) []) ≠ []
        ∧ pyStrip (pyOrStr (some "2025-06-01".toList) []) ≠ []
        ∧ pyStrip (pyOrStr (some "20:00".toList) []) ≠ []
        ∧ pyStrip (pyOrStr (some "sms".toList) ['s', 'm', 's']) = ['s', 'm', 's']
        ∧ normalizeMsisdns (pyOrStr (some "6900000000".toList) []) ≠ [])
      ∧ ((apiSend (some "Arena".toList) (some "2025-06-01".toList) (some "20:00".toList)
            (some "6900000000".toList) (some "sms".toList) [] (fun _ => 0)
            (false, ProviderResp.exception []) [] []).store
          = [] ++
            [{ id := genId (fun _ => 0), timestamp := [],
               place := pyStrip (pyOrStr (some "Arena".toList) []),
               date := pyStrip (pyOrStr (some "2025-06-01".toList) []),
               time := pyStrip (pyOrStr (some "20:00".toList) []),
               channel := pyStrip (pyOrStr (some "sms".toList) ['s', 'm', 's']),
               msisdns := normalizeMsisdns (pyOrStr (some "6900000000".toList) []),
               text := makeText (pyStrip (pyOrStr (some "Arena".toList) []))
                 (pyStrip (pyOrStr (some "2025-06-01".toList) []))
                 (pyStrip (pyOrStr (some "20:00".toList) []))
                 ([] ++ "/r?id=".toList ++ genId (fun _ => 0)),
               landing := [] ++ "/r?id=".toList ++ genId (fun _ => 0),
               provider_response := ((false, ProviderResp.exception []) : Bool × ProviderResp).2,
               seen_by := [] }]
        ∧ (((false, ProviderResp.exception []) : Bool × ProviderResp).1 = false →
            (apiSend (some "Arena".toList) (some "2025-06-01".toList) (some "20:00".toList)
              (some "6900000000".toList) (some "sms".toList) [] (fun _ => 0)
              (false, ProviderResp.exception []) [] []).response.ok = false
            ∧ (apiSend (some "Arena".toList) (some "2025-06-01".toList) (some "20:00".toList)
                (some "6900000000".toList) (some "sms".toList) [] (fun _ => 0)
                (false, ProviderResp.exception []) [] []).response.status = 500
            ∧ (apiSend (some "Arena".toList) (some "2025-06-01".toList) (some "20:00".toList)
                (some "6900000000".toList) (some "sms".toList) [] (fun _ => 0)
                (false, ProviderResp.exception []) [] []).response.id
              = some (genId (fun _ => 0))
            ∧ (apiSend (some "Arena".toList) (some "2025-06-01".toList) (some "20:00".toList)
                (some "6900000000".toList) (some "sms".toList) [] (fun _ => 0)
                (false, ProviderResp.exception []) [] []).response.landing
              = some ([] ++ "/r?id=".toList ++ genId (fun _ => 0))
            ∧ (apiSend (some "Arena".toList) (some "2025-06-01".toList) (some "20:00".toList)
                (some "6900000000".toList) (some "sms".toList) [] (fun _ => 0)
                (false, ProviderResp.exception []) [] []).response.provider
              = some ((false, ProviderResp.exception []) : Bool × ProviderResp).2)) :=
  ⟨⟨by decide, by decide, by decide, by decide, by decide⟩,
    send_persists_despite_transport_failure (some "Arena".toList) (some "2025-06-01".toList)
      (some "20:00".toList) (some "6900000000".toList) (some "sms".toList) []
      (fun _ => 0) (false, ProviderResp.exception []) [] []
      (by decide) (by decide) (by decide) (by decide) (by decide)⟩

theorem send_channel_defaults_witness :
    (((none : Option PyStr) = none ∨ (none : Option PyStr) = some [])
        ∧ pyStrip (pyOrStr (some "Arena".toList) []) ≠ []
        ∧ pyStrip (pyOrStr (some "2025-06-01".toList) []) ≠ []
        ∧ pyStrip (pyOrStr (some "20:00".toList) []) ≠ []
        ∧ normalizeMsisdns (pyOrStr (some "6900000000".toList) []) ≠ [])
      ∧ ((apiSend (some "Arena".toList) (some "2025-06-01".toList) (some "20:00".toList)
            (some "6900000000".toList) none [] (fun _ => 0) (true, ProviderResp.missingKey)
            [] []).transportInvoked = true
        ∧ (apiSend (some "Arena".toList) (some "2025-06-01".toList) (some "20:00".toList)
            (some "6900000000".toList) none [] (fun _ => 0) (true, ProviderResp.missingKey)
            [] []).store.map MsgRecord.channel
          = ([] : List MsgRecord).map MsgRecord.channel ++ ["sms".toList]) :=
  ⟨⟨Or.inl rfl, by decide, by decide, by decide, by decide⟩,
    send_channel_defaults_to_sms (some "Arena".toList) (some "2025-06-01".toList)
      (some "20:00".toList) (some "6900000000".toList) none [] (fun _ => 0)
      (true, ProviderResp.missingKey) [] [] (Or.inl rfl)
      (by decide) (by decide) (by decide) (by decide)⟩

theorem seen_appends_witness :
    (pyStrip "ab".toList = "ab".toList ∧ "ab".toList ≠ ([] : PyStr)
        ∧ (∀ y ∈ ([] : List MsgRecord), y.id ≠ "ab".toList)
        ∧ (sampleRecord "ab".toList).id = "ab".toList)
      ∧ ((apiSeen (some "ab".toList) [] [] ([] ++ sampleRecord "ab".toList :: [])).store
          = [] ++ { sampleRecord "ab".toList with
              seen_by := (sampleRecord "ab".toList).seen_by ++ [{ ts := [], ip := [] }] } :: []
        ∧ ((sampleRecord "ab".toList).seen_by ++ [({ ts := [], ip := [] } : SeenEvent)]).length
            = (sampleRecord "ab".toList).seen_by.length + 1
        ∧ (apiSeen (some "ab".toList) [] [] ([] ++ sampleRecord "ab".toList :: [])).ok
            = true) :=
  ⟨⟨by decide, by decide, by simp, by decide⟩,
    seen_appends_to_matching_record "ab".toList [] [] [] [] (sampleRecord "ab".toList)
      (by decide) (by decide) (by simp) (by decide)⟩

theorem seen_unknown_id_noop_witness :
    (pyStrip "cd".toList = "cd".toList ∧ "cd".toList ≠ ([] : PyStr)
        ∧ (∀ y ∈ [sampleRecord "ab".toList], y.id ≠ "cd".toList))
      ∧ ((apiSeen (some "cd".toList) [] [] [sampleRecord "ab".toList]).store
          = [sampleRecord "ab".toList]
        ∧ (apiSeen (some "cd".toList) [] [] [sampleRecord "ab".toList]).written = false
        ∧ (apiSeen (some "cd".toList) [] [] [sampleRecord "ab".toList]).ok = true) :=
  ⟨⟨by decide, by decide, by decide⟩,
    seen_unknown_id_noop "cd".toList [] [] [sampleRecord "ab".toList]
      (by decide) (by decide) (by decide)⟩

/-! ## C4 -/

/-- C4: the normalizer's output is exactly the pre-deduplication canonical
list restricted to first occurrences — each canonical number appears once,
at the position order of its first occurrence — and the worked example
collapses to a single entry. -/
theorem normalize_first_seen_dedup :
    (∀ raw : PyStr, normalizeMsisdns raw = firstOccurrences (canonOut raw))
      ∧ normalizeMsisdns "6912345678, 06912345678; 306912345678".toList
        = ["306912345678".toList] := by
  constructor
  · intro raw
    rw [normalizeMsisdns, dedupFirst, dedupFirstAux_eq_firstOcc, firstOccurrences]
    refine List.filterMap_congr fun i hi => ?_
    simp
  · decide

/-! ## Helper lemmas for the idempotence analysis (C2) -/

theorem not_isLineBreak_of_isDigit {c : Char} (h : c.isDigit = true) :
    isLineBreak c = false := by
  cases hb : isLineBreak c
  · rfl
  · exfalso
    simp only [isLineBreak, Bool.or_eq_true, decide_eq_true_eq, or_assoc] at hb
    rcases hb with rfl | rfl | rfl | rfl | rfl | rfl | rfl | rfl | rfl | rfl <;>
      exact absurd h (by decide)

theorem not_pyIsSpace_of_isDigit {c : Char} (h : c.isDigit = true) :
    pyIsSpace c = false := by
  cases hb : pyIsSpace c
  · rfl
  · exfalso
    simp only [pyIsSpace, Bool.or_eq_true, decide_eq_true_eq, or_assoc] at hb
    rcases hb with rfl | rfl | rfl | rfl | rfl | rfl | rfl | rfl | rfl | rfl | rfl | rfl <;>
      exact absurd h (by decide)

theorem ne_sep_of_isDigit {c : Char} (h : c.isDigit = true) :
    c ≠ ',' ∧ c ≠ ';' ∧ c ≠ '\t' ∧ c ≠ '\n' := by
  refine ⟨?_, ?_, ?_, ?_⟩ <;> rintro rfl <;> exact absurd h (by decide)

theorem pyReplace_eq_self {s : PyStr} {old new : Char} (h : ∀ c ∈ s, c ≠ old) :
    pyReplace s old new = s := by
  unfold pyReplace
  induction s with
  | nil => rfl
  | cons c t ih =>
    simp only [List.map_cons]
    rw [if_neg (h c (List.mem_cons_self _ _)),
      ih fun x hx => h x (List.mem_cons_of_mem _ hx)]

theorem dropWhile_eq_self_of_all {p : Char → Bool} {s : PyStr}
    (h : ∀ c ∈ s, p c = false) : s.dropWhile p = s := by
  cases s with
  | nil => rfl
  | cons c t =>
    rw [List.dropWhile_cons, h c (List.mem_cons_self _ _)]
    simp

theorem pyStrip_eq_self_of_all {s : PyStr} (h : ∀ c ∈ s, pyIsSpace c = false) :
    pyStrip s = s := by
  unfold pyStrip
  rw [dropWhile_eq_self_of_all h,
    dropWhile_eq_self_of_all fun c hc => h c (List.mem_reverse.mp hc),
    List.reverse_reverse]

theorem filter_eq_self_of_all {p : Char → Bool} {s : PyStr} (h : ∀ c ∈ s, p c = true) :
    s.filter p = s := by
  induction s with
  | nil => rfl
  | cons c t ih =>
    rw [List.filter_cons, if_pos (h c (List.mem_cons_self _ _)),
      ih fun x hx => h x (List.mem_cons_of_mem _ hx)]

theorem filterMap_id_of_all {α : Type} {f : α → Option α} {l : List α}
    (h : ∀ a ∈ l, f a = some a) : l.filterMap f = l := by
  induction l with
  | nil => rfl
  | cons a t ih =>
    rw [List.filterMap_cons, h a (List.mem_cons_self _ _),
      ih fun x hx => h x (List.mem_cons_of_mem _ hx)]

theorem pySplitlines_newline_cons (t : PyStr) :
    pySplitlines ('\n' :: t) = [] :: pySplitlines t := by
  cases t with
  | nil => rfl
  | cons c2 rest => simp [pySplitlines, show isLineBreak '\n' = true from by decide]

theorem pySplitlines_cons_not_break {c : Char} {t : PyStr} (hc : isLineBreak c = false) :
    pySplitlines (c :: t) = consHead c (pySplitlines t) := by
  have hcr : c ≠ '\r' := fun h => by subst h; exact absurd hc (by decide)
  cases t with
  | nil => simp [pySplitlines, consHead, hc]
  | cons c2 rest => simp [pySplitlines, hc, hcr]

theorem pySplitlines_single : ∀ d : PyStr, d ≠ [] →
    (∀ c ∈ d, isLineBreak c = false) → pySplitlines d = [d] := by
  intro d
  induction d with
  | nil => intro hne _; exact absurd rfl hne
  | cons c t ih =>
    intro _ hd
    rw [pySplitlines_cons_not_break (hd c (List.mem_cons_self _ _))]
    cases t with
    | nil => rfl
    | cons c2 rest =>
      rw [ih (by simp) fun x hx => hd x (List.mem_cons_of_mem _ hx)]
      rfl

theorem pySplitlines_append_line (s : PyStr) : ∀ d : PyStr, d ≠ [] →
    (∀ c ∈ d, isLineBreak c = false) →
    pySplitlines (d ++ '\n' :: s) = d :: pySplitlines s := by
  intro d
  induction d with
  | nil => intro hne _; exact absurd rfl hne
  | cons c t ih =>
    intro _ hd
    rw [List.cons_append, pySplitlines_cons_not_break (hd c (List.mem_cons_self _ _))]
    cases t with
    | nil =>
      rw [List.nil_append, pySplitlines_newline_cons]
      rfl
    | cons c2 t2 =>
      rw [ih (by simp) fun x hx => hd x (List.mem_cons_of_mem _ hx)]
      rfl

theorem pySplitlines_joinNL : ∀ u : List PyStr, (∀ d ∈ u, d ≠ []) →
    (∀ d ∈ u, ∀ c ∈ d, isLineBreak c = false) → pySplitlines (joinNL u) = u := by
  intro u
  induction u with
  | nil => intro _ _; rfl
  | cons d u ih =>
    intro hne hd
    cases u with
    | nil =>
      exact pySplitlines_single d (hne d (List.mem_cons_self _ _))
        (hd d (List.mem_cons_self _ _))
    | cons d2 u2 =>
      rw [show joinNL (d :: d2 :: u2) = d ++ '\n' :: joinNL (d2 :: u2) from rfl,
        pySplitlines_append_line _ d (hne d (List.mem_cons_self _ _))
          (hd d (List.mem_cons_self _ _)),
        ih (fun x hx => hne x (List.mem_cons_of_mem _ hx))
          (fun x hx => hd x (List.mem_cons_of_mem _ hx))]

theorem mem_joinNL : ∀ (u : List PyStr) (c : Char), c ∈ joinNL u →
    c = '\n' ∨ ∃ d ∈ u, c ∈ d := by
  intro u
  induction u with
  | nil => intro c hc; simp [joinNL] at hc
  | cons d u ih =>
    intro c hc
    cases u with
    | nil => exact Or.inr ⟨d, List.mem_cons_self _ _, hc⟩
    | cons d2 u2 =>
      rw [show joinNL (d :: d2 :: u2) = d ++ '\n' :: joinNL (d2 :: u2) from rfl] at hc
      rcases List.mem_append.mp hc with hc | hc
      · exact Or.inr ⟨d, List.mem_cons_self _ _, hc⟩
      · rcases List.mem_cons.mp hc with rfl | hc
        · exact Or.inl rfl
        · rcases ih c hc with hc | ⟨d', hd', hcd⟩
          · exact Or.inl hc
          · exact Or.inr ⟨d', List.mem_cons_of_mem _ hd', hcd⟩

theorem startsWithL_exists {p : PyStr} : ∀ {d : PyStr}, startsWithL d p = true →
    ∃ t, d = p ++ t := by
  induction p with
  | nil => exact fun {d} _ => ⟨d, rfl⟩
  | cons a p ih =>
    intro d h
    cases d with
    | nil => simp [startsWithL] at h
    | cons c t =>
      simp only [startsWithL, Bool.and_eq_true, decide_eq_true_eq] at h
      obtain ⟨rfl, h2⟩ := h
      obtain ⟨t', rfl⟩ := ih h2
      exact ⟨t', rfl⟩

theorem startsWithL_append_self (p t : PyStr) : startsWithL (p ++ t) p = true := by
  induction p with
  | nil => cases t <;> rfl
  | cons a p ih => simp [startsWithL, ih]

theorem canonBranch_shape {d : PyStr} (hd : ∀ c ∈ d, c.isDigit = true) :
    (∀ c ∈ canonBranch d, c.isDigit = true)
      ∧ (startsWithL (canonBranch d) ['3', '0'] = true
          ∨ startsWithL (canonBranch d) ['6', '9'] = false) := by
  unfold canonBranch
  by_cases h30 : startsWithL d ['3', '0'] = true
  · rw [if_pos h30]; exact ⟨hd, Or.inl h30⟩
  · rw [if_neg h30]
    by_cases h69 : startsWithL d ['6', '9'] = true
    · rw [if_pos h69]
      constructor
      · intro c hc
        rcases List.mem_append.mp hc with hc | hc
        · rcases List.mem_cons.mp hc with rfl | hc
          · decide
          · rcases List.mem_cons.mp hc with rfl | hc
            · decide
            · exact absurd hc (List.not_mem_nil c)
        · exact hd c hc
      · exact Or.inl (startsWithL_append_self ['3', '0'] d)
    · rw [if_neg h69]
      by_cases h0030 : startsWithL d ['0', '0', '3', '0'] = true
      · rw [if_pos h0030]
        obtain ⟨t, rfl⟩ := startsWithL_exists h0030
        constructor
        · intro c hc
          exact hd c (List.mem_of_mem_drop hc)
        · left
          rw [show (['0', '0', '3', '0'] ++ t).drop 2 = ['3', '0'] ++ t from rfl]
          exact startsWithL_append_self ['3', '0'] t
      · rw [if_neg h0030]
        refine ⟨hd, Or.inr ?_⟩
        cases hb : startsWithL d ['6', '9']
        · rfl
        · exact absurd hb h69

theorem canonFrag_shape {d : PyStr} (hd : ∀ c ∈ d, c.isDigit = true) :
    (∀ c ∈ canonFrag d, c.isDigit = true)
      ∧ (startsWithL (canonFrag d) ['3', '0'] = true
          ∨ startsWithL (canonFrag d) ['6', '9'] = false) := by
  unfold canonFrag
  apply canonBranch_shape
  intro c hc
  split at hc
  · exact hd c (List.mem_of_mem_drop hc)
  · exact hd c hc

theorem canonBranch_fixed {d : PyStr} (h0 : startsWithL d ['0'] = false)
    (hsh : startsWithL d ['3', '0'] = true ∨ startsWithL d ['6', '9'] = false) :
    canonBranch d = d := by
  unfold canonBranch
  by_cases h30 : startsWithL d ['3', '0'] = true
  · rw [if_pos h30]
  · rw [if_neg h30]
    have h69 : startsWithL d ['6', '9'] = false := hsh.resolve_left h30
    rw [if_neg (show ¬startsWithL d ['6', '9'] = true from by simp [h69])]
    have h0030 : ¬startsWithL d ['0', '0', '3', '0'] = true := by
      intro hb
      obtain ⟨t, rfl⟩ := startsWithL_exists hb
      simp [startsWithL] at h0
    rw [if_neg h0030]

theorem canonFrag_fixed {d : PyStr} (h0 : startsWithL d ['0'] = false)
    (hsh : startsWithL d ['3', '0'] = true ∨ startsWithL d ['6', '9'] = false) :
    canonFrag d = d := by
  unfold canonFrag
  rw [if_neg (show ¬startsWithL d ['0'] = true from by simp [h0])]
  exact canonBranch_fixed h0 hsh

theorem canonOut_shape {raw : PyStr} : ∀ x ∈ canonOut raw,
    (∀ c ∈ x, c.isDigit = true)
      ∧ (startsWithL x ['3', '0'] = true ∨ startsWithL x ['6', '9'] = false) := by
  intro x hx
  unfold canonOut at hx
  by_cases hemp : raw.isEmpty = true
  · rw [if_pos hemp] at hx; exact absurd hx (List.not_mem_nil x)
  · rw [if_neg hemp] at hx
    unfold canonParts at hx
    rcases List.mem_filterMap.mp hx with ⟨p, hp, hpx⟩
    by_cases hd : (p.filter Char.isDigit).isEmpty = true
    · simp only [hd, if_true] at hpx
      exact absurd hpx (by simp)
    · simp only [hd, if_false] at hpx
      obtain rfl := Option.some.inj hpx
      exact canonFrag_shape fun c hc => (List.mem_filter.mp hc).2

theorem stripParts_eq_self {l : List PyStr} (hne : ∀ p ∈ l, p ≠ [])
    (hd : ∀ p ∈ l, ∀ c ∈ p, pyIsSpace c = false) : stripParts l = l := by
  unfold stripParts
  apply filterMap_id_of_all
  intro p hp
  simp only [pyStrip_eq_self_of_all (hd p hp), isEmpty_false_of_ne_nil (hne p hp),
    Bool.false_eq_true, if_false]

theorem canonParts_eq_self {l : List PyStr} (hne : ∀ p ∈ l, p ≠ [])
    (hdig : ∀ p ∈ l, ∀ c ∈ p, c.isDigit = true)
    (h0 : ∀ p ∈ l, startsWithL p ['0'] = false)
    (hsh : ∀ p ∈ l, startsWithL p ['3', '0'] = true
      ∨ startsWithL p ['6', '9'] = false) :
    canonParts l = l := by
  unfold canonParts
  apply filterMap_id_of_all
  intro p hp
  simp only [filter_eq_self_of_all (hdig p hp), isEmpty_false_of_ne_nil (hne p hp),
    Bool.false_eq_true, if_false, canonFrag_fixed (h0 p hp) (hsh p hp)]

theorem canonOut_joinNL_eq {u : List PyStr}
    (hne : ∀ d ∈ u, d ≠ [])
    (hdig : ∀ d ∈ u, ∀ c ∈ d, c.isDigit = true)
    (h0 : ∀ d ∈ u, startsWithL d ['0'] = false)
    (hsh : ∀ d ∈ u, startsWithL d ['3', '0'] = true
      ∨ startsWithL d ['6', '9'] = false) :
    canonOut (joinNL u) = u := by
  cases u with
  | nil => rfl
  | cons d0 u0 =>
    have hmemchar : ∀ c ∈ joinNL (d0 :: u0), c = '\n' ∨ c.isDigit = true := by
      intro c hc
      rcases mem_joinNL _ c hc with h | ⟨d, hd, hcd⟩
      · exact Or.inl h
      · exact Or.inr (hdig d hd c hcd)
    have hjne : joinNL (d0 :: u0) ≠ [] := by
      cases u0 with
      | nil => exact hne d0 (List.mem_cons_self _ _)
      | cons d2 u2 =>
        rw [show joinNL (d0 :: d2 :: u2) = d0 ++ '\n' :: joinNL (d2 :: u2) from rfl]
        simp
    have hrep : pyReplace (pyReplace (pyReplace (joinNL (d0 :: u0)) ',' '\n') ';' '\n')
        '\t' '\n' = joinNL (d0 :: u0) := by
      have r1 : pyReplace (joinNL (d0 :: u0)) ',' '\n' = joinNL (d0 :: u0) :=
        pyReplace_eq_self fun c hc => by
          rcases hmemchar c hc with rfl | hd
          · decide
          · exact (ne_sep_of_isDigit hd).1
      rw [r1]
      have r2 : pyReplace (joinNL (d0 :: u0)) ';' '\n' = joinNL (d0 :: u0) :=
        pyReplace_eq_self fun c hc => by
          rcases hmemchar c hc with rfl | hd
          · decide
          · exact (ne_sep_of_isDigit hd).2.1
      rw [r2]
      exact pyReplace_eq_self fun c hc => by
        rcases hmemchar c hc with rfl | hd
        · decide
        · exact (ne_sep_of_isDigit hd).2.2.1
    have hsplit : pySplitlines (joinNL (d0 :: u0)) = d0 :: u0 :=
      pySplitlines_joinNL _ hne fun d hd c hc =>
        not_isLineBreak_of_isDigit (hdig d hd c hc)
    unfold canonOut
    rw [if_neg (show ¬(joinNL (d0 :: u0)).isEmpty = true from by
      simp [isEmpty_false_of_ne_nil hjne])]
    rw [hrep, hsplit]
    rw [stripParts_eq_self hne fun p hp c hc =>
      not_pyIsSpace_of_isDigit (hdig p hp c hc)]
    exact canonParts_eq_self hne hdig h0 hsh

theorem normalize_joinNL_eq_self {u : List PyStr}
    (hne : ∀ d ∈ u, d ≠ [])
    (hdig : ∀ d ∈ u, ∀ c ∈ d, c.isDigit = true)
    (h0 : ∀ d ∈ u, startsWithL d ['0'] = false)
    (hsh : ∀ d ∈ u, startsWithL d ['3', '0'] = true
      ∨ startsWithL d ['6', '9'] = false)
    (hnd : u.Nodup) :
    normalizeMsisdns (joinNL u) = u := by
  rw [normalizeMsisdns, canonOut_joinNL_eq hne hdig h0 hsh, dedupFirst,
    dedupFirstAux_eq_self hnd fun x _ => List.not_mem_nil x]

/-! ## C2, amended -/

/-- C2 amended: normalization is idempotent on every input whose one-pass
output consists of non-empty numbers that do not begin with the digit `0`
(every number built by the `30`/`69` branches is of this shape; only the
fall-through of a fragment with two or more leading zeros, or of a
whitespace-only digit string, escapes it, as the counterexample shows). -/
theorem normalize_idempotent_of_no_leading_zero (raw : PyStr)
    (h : ∀ d ∈ normalizeMsisdns raw, d ≠ [] ∧ startsWithL d ['0'] = false) :
    normalizeMsisdns (joinNL (normalizeMsisdns raw)) = normalizeMsisdns raw := by
  apply normalize_joinNL_eq_self
  · exact fun d hd => (h d hd).1
  · exact fun d hd => (canonOut_shape d (mem_canonOut_of_mem_normalize hd)).1
  · exact fun d hd => (h d hd).2
  · exact fun d hd => (canonOut_shape d (mem_canonOut_of_mem_normalize hd)).2
  · exact nodup_normalizeMsisdns raw

theorem normalize_idempotent_witness :
    (∀ d ∈ normalizeMsisdns "6912345678, 06912345678".toList,
        d ≠ [] ∧ startsWithL d ['0'] = false)
      ∧ normalizeMsisdns (joinNL (normalizeMsisdns "6912345678, 06912345678".toList))
        = normalizeMsisdns "6912345678, 06912345678".toList :=
  ⟨by decide, normalize_idempotent_of_no_leading_zero _ (by decide)⟩
